import Mathlib

/-!
# Verification of the MPCP-lassa-sentinel batch conversion pipeline

Shallow embedding of the distributed CHIRPS batch-conversion pipeline
(`src/processing.py`, `src/extraction_and_processing_chirps.py`,
`src/progress_monitor.py`, `src/batch_task_runner.py`,
`src/batch_job_creator.py`) and proofs about its chunking, retry,
checkpointing, upload, monitoring and dispatch logic.

External effects (HTTP download, gzip, rasterio, the Azure SDK, the local
filesystem) are modelled explicitly: the filesystem is an association list
from path to content, the blob store an association list from
(container, blob name) to content, and fallible Python calls return
`Except String α` where the `String` is the exception message.
-/

namespace LassaSentinel

/-- A work item as built in `extraction_and_processing_chirps.py`
(`{"year": data['year'], "url": url}`). -/
structure WorkItem where
  year : String
  url : String
deriving DecidableEq, Repr

/-! ## Chunker (`extraction_and_processing_chirps.py`, `create_chunks`)

The Python loop is `for i in range(0, len(work_items), chunk_size):
chunks.append(work_items[i:i+chunk_size])`.  Each slice takes the next
`chunk_size` items, so the loop is embedded structurally: the first slice
is `take chunk_size`, the remaining slices are the chunks of
`drop chunk_size`.  `range` with a zero step raises `ValueError`, hence
the `Except`. -/

/-- The slicing loop of `create_chunks`, for a positive chunk size
`s + 1`. -/
def createChunksGo (s : Nat) : List WorkItem → List (List WorkItem)
  | [] => []
  | x :: xs => ((x :: xs).take (s + 1)) :: createChunksGo s ((x :: xs).drop (s + 1))
termination_by l => l.length
decreasing_by simp [List.length_drop]; omega

/-- Embeds `create_chunks(work_items, chunk_size)` (the default
`chunk_size` in the source is 550, see `chunk_size_default`). -/
def create_chunks (work_items : List WorkItem) (chunk_size : Nat) :
    Except String (List (List WorkItem)) :=
  match chunk_size with
  | 0 => .error "ValueError: range() arg 3 must not be zero"
  | s + 1 => .ok (createChunksGo s work_items)

/-- The default chunk size of `create_chunks`. -/
def chunk_size_default : Nat := 550

theorem createChunksGo_flatten (s : Nat) (l : List WorkItem) :
    (createChunksGo s l).flatten = l := by
  induction l using createChunksGo.induct s with
  | case1 => simp [createChunksGo]
  | case2 x xs ih =>
    rw [createChunksGo, List.flatten_cons, ih, List.take_append_drop]

theorem createChunksGo_length_le (s : Nat) (l : List WorkItem) :
    ∀ c ∈ createChunksGo s l, c.length ≤ s + 1 ∧ c ≠ [] := by
  induction l using createChunksGo.induct s with
  | case1 => simp [createChunksGo]
  | case2 x xs ih =>
    rw [createChunksGo]
    intro c hc
    rcases List.mem_cons.mp hc with h | h
    · subst h
      constructor
      · simp
      · simp
    · exact ih c h

theorem createChunksGo_dropLast_length (s : Nat) (l : List WorkItem) :
    ∀ c ∈ (createChunksGo s l).dropLast, c.length = s + 1 := by
  induction l using createChunksGo.induct s with
  | case1 => simp [createChunksGo]
  | case2 x xs ih =>
    rw [createChunksGo]
    intro c hc
    by_cases hrest : createChunksGo s ((x :: xs).drop (s + 1)) = []
    · rw [hrest] at hc
      simp at hc
    · rw [List.dropLast_cons_of_ne_nil hrest] at hc
      rcases List.mem_cons.mp hc with h | h
      · subst h
        have hxs : s + 1 ≤ (x :: xs).length := by
          by_contra hlt
          push_neg at hlt
          have : (x :: xs).drop (s + 1) = [] := List.drop_eq_nil_of_le (by omega)
          rw [this] at hrest
          exact hrest (by simp [createChunksGo])
        simpa using List.length_take_of_le hxs
      · exact ih c h

/-- C6: for every item list `L` and positive chunk size `s`, `create_chunks`
succeeds and its chunks concatenate back to exactly `L`, every chunk except
possibly the last has length exactly `s`, every chunk is nonempty of length
at most `s`, and an empty input yields an empty sequence of chunks. -/
theorem create_chunks_partition (L : List WorkItem) (s : Nat) (hs : 0 < s) :
    ∃ cs, create_chunks L s = .ok cs ∧
      cs.flatten = L ∧
      (∀ c ∈ cs.dropLast, c.length = s) ∧
      (∀ c ∈ cs, c.length ≤ s ∧ c ≠ []) ∧
      (L = [] → cs = []) := by
  obtain ⟨t, rfl⟩ : ∃ t, s = t + 1 := ⟨s - 1, by omega⟩
  refine ⟨createChunksGo t L, rfl, createChunksGo_flatten t L,
    createChunksGo_dropLast_length t L, createChunksGo_length_le t L, ?_⟩
  rintro rfl
  simp [createChunksGo]

/-- Witness for C6 at a concrete 5-item list and chunk size 2. -/
theorem create_chunks_partition_witness :
    0 < 2 ∧
    ∃ cs, create_chunks
        [⟨"1981", "u1"⟩, ⟨"1981", "u2"⟩, ⟨"1981", "u3"⟩,
         ⟨"1982", "u4"⟩, ⟨"1982", "u5"⟩] 2 = .ok cs ∧
      cs.flatten =
        [⟨"1981", "u1"⟩, ⟨"1981", "u2"⟩, ⟨"1981", "u3"⟩,
         ⟨"1982", "u4"⟩, ⟨"1982", "u5"⟩] ∧
      (∀ c ∈ cs.dropLast, c.length = 2) ∧
      (∀ c ∈ cs, c.length ≤ 2 ∧ c ≠ []) ∧
      (([⟨"1981", "u1"⟩, ⟨"1981", "u2"⟩, ⟨"1981", "u3"⟩,
         ⟨"1982", "u4"⟩, ⟨"1982", "u5"⟩] : List WorkItem) = [] → cs = []) :=
  ⟨by decide, create_chunks_partition _ 2 (by decide)⟩

/-! ## Item processor result (`processing.py`, `decompress_convert_to_cog`)

`decompress_convert_to_cog` returns the tuple
`(clipped_tiff_path, cog_file_name, raw_file_path, raw_file_name)`. -/

/-- The 4-tuple returned by `decompress_convert_to_cog` on success. -/
structure Artifact where
  cog_file_path : String
  cog_file_name : String
  raw_file_path : String
  raw_file_name : String
deriving DecidableEq, Repr

/-! ## Worker runner (`processing.py`, `process_batch_with_progress`)

The runner's external effects are traced in a `RunnerState`:

* `procCalls` counts invocations of `decompress_convert_to_cog`, which the
  runner is parameterised over (`proc`) since its body performs network and
  raster I/O; it is called exactly once per loop iteration, inside `try`;
* `uploads` records the `upload_blob_to_azure` calls in order, as
  `(container_name, file_name)`; in this trace model the uploads of the
  success branch are taken to succeed (their failure semantics against a
  blob store is modelled separately by `upload_blob_to_azure` below);
* `completed`, `failed_files`, `processed_count` mirror the Python locals;
* `checkpoints` records each execution of the checkpoint block
  (`update_progress_file(task_id, len(completed), failed_files)` followed by
  `cleanup_local_files(completed)`), with the loop index at which it ran,
  the arguments passed, and the cleanup argument. -/

/-- One execution of the checkpoint block at the bottom of the runner
loop. -/
structure CheckpointEvent where
  idx : Nat
  completedCount : Nat
  failedSnapshot : List (WorkItem × String)
  cleanupArg : List (String × String)
deriving DecidableEq, Repr

/-- The mutable locals and effect traces of
`process_batch_with_progress`. -/
structure RunnerState where
  failed_files : List (WorkItem × String)
  completed : List (String × String)
  processed_count : Nat
  uploads : List (String × String)
  checkpoints : List CheckpointEvent
  procCalls : Nat
deriving DecidableEq, Repr

/-- Initial runner state (`failed_files = []`, `completed = []`,
`processed_count = 0`). -/
def initRunnerState : RunnerState := ⟨[], [], 0, [], [], 0⟩

/-- One iteration of the runner loop body at enumeration index `i`
(`total` is `len(work_items_chunk)`): the `try` block invokes the
processor once; on failure the item and error string are appended to
`failed_files` and the iteration ends (`continue`); on success the two
uploads and the `completed` append happen, `processed_count` is
incremented, and the checkpoint block runs when
`processed_count % 10 == 0 or i == len(work_items_chunk) - 1`. -/
def runnerStep (proc : WorkItem → Except String Artifact) (total i : Nat)
    (item : WorkItem) (st : RunnerState) : RunnerState :=
  let st1 := { st with procCalls := st.procCalls + 1 }
  match proc item with
  | .error e => { st1 with failed_files := st1.failed_files ++ [(item, e)] }
  | .ok a =>
    let st2 := { st1 with
      uploads := st1.uploads ++
        [("processed-cogs", item.year ++ "/" ++ a.cog_file_name),
         ("raw-data", item.year ++ "/" ++ a.raw_file_name)],
      completed := st1.completed ++ [(a.cog_file_path, a.raw_file_path)],
      processed_count := st1.processed_count + 1 }
    if st2.processed_count % 10 == 0 || i == total - 1 then
      { st2 with checkpoints := st2.checkpoints ++
        [⟨i, st2.completed.length, st2.failed_files, st2.completed⟩] }
    else st2

/-- The `for i, item in enumerate(work_items_chunk)` loop of
`process_batch_with_progress`, iterating `runnerStep`. -/
def runnerGo (proc : WorkItem → Except String Artifact) (total : Nat) :
    Nat → List WorkItem → RunnerState → RunnerState
  | _, [], st => st
  | i, item :: rest, st =>
    runnerGo proc total (i + 1) rest (runnerStep proc total i item st)

set_option linter.unusedVariables false in
/-- Embeds `process_batch_with_progress(work_items_chunk, task_id)`,
parameterised over the item processor `proc` (the embedding of
`decompress_convert_to_cog item directory`).  The `task_id` only flows
into `update_progress_file`, whose blob naming is modelled by
`update_progress_blob_name` below. -/
def process_batch_with_progress (proc : WorkItem → Except String Artifact)
    (work_items_chunk : List WorkItem) (task_id : Nat) : RunnerState :=
  runnerGo proc work_items_chunk.length 0 work_items_chunk initRunnerState

/-! ## Bounded retry (`processing.py`,
`decompress_convert_to_cog_with_retry`)

`for attempt in range(max_retries): try: f(); return / except: if
attempt < max_retries - 1: time.sleep(uniform(1, 3) * (2 ** attempt))
else: raise e`.  The attempt outcomes are a parameter `attemptResult`
(the embedding of `decompress_convert_to_cog(work_item, directory)` at
each attempt) and the random draw `uniform(1, 3)` of each attempt is a
parameter `jitter`; the result records (number of attempts actually made,
the sleep durations in order, final outcome).  Note the source discards
the processed artifact (`return` with no value), so the outcome carries
`Unit`. -/

/-- The retry loop from loop index `attempt` up to `max_retries`. -/
def retryGo (attemptResult : Nat → Except String Unit) (jitter : Nat → ℚ)
    (max_retries : Nat) (attempt : Nat) : Nat × List ℚ × Except String Unit :=
  if attempt < max_retries then
    match attemptResult attempt with
    | .ok _ => (attempt + 1, [], .ok ())
    | .error e =>
      if attempt < max_retries - 1 then
        let rest := retryGo attemptResult jitter max_retries (attempt + 1)
        (rest.1, jitter attempt * 2 ^ attempt :: rest.2.1, rest.2.2)
      else (attempt + 1, [], .error e)
  else (attempt, [], .ok ())
termination_by max_retries - attempt

/-- Embeds `decompress_convert_to_cog_with_retry(work_item, directory,
max_retries)` (default `max_retries = 3`). -/
def decompress_convert_to_cog_with_retry
    (attemptResult : Nat → Except String Unit) (jitter : Nat → ℚ)
    (max_retries : Nat) : Nat × List ℚ × Except String Unit :=
  retryGo attemptResult jitter max_retries 0

theorem runnerGo_nil (proc : WorkItem → Except String Artifact)
    (total i : Nat) (st : RunnerState) :
    runnerGo proc total i [] st = st := rfl

theorem runnerGo_cons_eq (proc : WorkItem → Except String Artifact)
    (total i : Nat) (item : WorkItem) (rest : List WorkItem)
    (st : RunnerState) :
    runnerGo proc total i (item :: rest) st =
      runnerGo proc total (i + 1) rest (runnerStep proc total i item st) :=
  rfl

theorem runnerStep_procCalls (proc : WorkItem → Except String Artifact)
    (total i : Nat) (item : WorkItem) (st : RunnerState) :
    (runnerStep proc total i item st).procCalls = st.procCalls + 1 := by
  cases hp : proc item with
  | error e => simp [runnerStep, hp]
  | ok a =>
    simp only [runnerStep, hp]
    split <;> rfl

theorem runnerGo_procCalls (proc : WorkItem → Except String Artifact)
    (total : Nat) :
    ∀ (rest : List WorkItem) (i : Nat) (st : RunnerState),
      (runnerGo proc total i rest st).procCalls = st.procCalls + rest.length
  | [], i, st => by rw [runnerGo_nil]; simp
  | item :: rest, i, st => by
    rw [runnerGo_cons_eq, runnerGo_procCalls proc total rest,
      runnerStep_procCalls]
    simp
    omega

/-- The runner invokes the item processor exactly once per work item. -/
theorem process_batch_procCalls (proc : WorkItem → Except String Artifact)
    (chunk : List WorkItem) (task_id : Nat) :
    (process_batch_with_progress proc chunk task_id).procCalls =
      chunk.length := by
  rw [process_batch_with_progress, runnerGo_procCalls]
  simp [initRunnerState]

theorem retryGo_attempts_le (f : Nat → Except String Unit) (j : Nat → ℚ)
    (m : Nat) (a : Nat) (h : a ≤ m) : (retryGo f j m a).1 ≤ m := by
  rw [retryGo]
  split
  · rename_i hlt
    cases hf : f a with
    | ok u => simp; omega
    | error e =>
      simp only
      split
      · have := retryGo_attempts_le f j m (a + 1) (by omega)
        simp [this]
      · simp; omega
  · simp; omega
termination_by m - a

theorem retry_always_fail (f : Nat → Except String Unit) (j : Nat → ℚ)
    (msg : Nat → String) (h : ∀ n, f n = .error (msg n)) :
    decompress_convert_to_cog_with_retry f j 3 =
      (3, [j 0 * 2 ^ 0, j 1 * 2 ^ 1], .error (msg 2)) := by
  rw [decompress_convert_to_cog_with_retry]
  rw [retryGo]
  simp only [h 0, show (0 : Nat) < 3 by decide, if_true]
  rw [retryGo]
  simp only [h 1, show (1 : Nat) < 3 by decide, if_true]
  rw [retryGo]
  simp only [h 2, show (2 : Nat) < 3 by decide, if_true]
  norm_num

theorem process_batch_single_failure (proc : WorkItem → Except String Artifact)
    (it : WorkItem) (e : String) (tid : Nat) (hp : proc it = .error e) :
    (process_batch_with_progress proc [it] tid).failed_files = [(it, e)] := by
  simp [process_batch_with_progress, runnerGo, runnerStep, hp,
    initRunnerState]

/-- A work item for exercising the runner on an always-failing
processor. -/
def itemRetryProbe : WorkItem := ⟨"1981", "https://d/1981/fail.tif.gz"⟩

/-- An item processor that fails on every invocation, as in the retry
exhaustion scenario. -/
def procAlwaysFails : WorkItem → Except String Artifact :=
  fun _ => .error "DownloadError"

/-- C2 (counterexample): `process_batch_with_progress` calls
`decompress_convert_to_cog` directly (line 266), not
`decompress_convert_to_cog_with_retry`; with an always-failing item
processor and a one-item chunk the processor is invoked exactly once, not
3 times, before the item lands in `failed_files`. -/
theorem runner_retry_counterexample :
    (process_batch_with_progress procAlwaysFails [itemRetryProbe] 0).procCalls
      = 1 ∧
    (1 : Nat) ≠ 3 ∧
    (process_batch_with_progress procAlwaysFails [itemRetryProbe] 0).failed_files
      = [(itemRetryProbe, "DownloadError")] :=
  ⟨rfl, by decide, rfl⟩

/-- C2 (amended): the retry helper `decompress_convert_to_cog_with_retry`
makes at most `max_retries` attempts; with an always-failing processor and
`max_retries = 3` it makes exactly 3 attempts, sleeps
`jitter 0 · 2⁰` then `jitter 1 · 2¹` seconds between them, and re-raises
the final error.  `process_batch_with_progress`, however, never calls this
helper: it invokes `decompress_convert_to_cog` exactly once per item, and
a failing item then appears in `failed_files` with its error message. -/
theorem retry_policy_amended
    (f : Nat → Except String Unit) (j : Nat → ℚ) (msg : Nat → String)
    (m : Nat) (proc : WorkItem → Except String Artifact)
    (chunk : List WorkItem) (tid tid2 : Nat) (it : WorkItem) (e : String)
    (hfail : ∀ n, f n = .error (msg n)) (hproc : proc it = .error e) :
    (decompress_convert_to_cog_with_retry f j m).1 ≤ m ∧
    decompress_convert_to_cog_with_retry f j 3 =
      (3, [j 0 * 2 ^ 0, j 1 * 2 ^ 1], .error (msg 2)) ∧
    (process_batch_with_progress proc chunk tid).procCalls = chunk.length ∧
    (process_batch_with_progress proc [it] tid2).failed_files = [(it, e)] :=
  ⟨retryGo_attempts_le f j m 0 (Nat.zero_le m),
   retry_always_fail f j msg hfail,
   process_batch_procCalls proc chunk tid,
   process_batch_single_failure proc it e tid2 hproc⟩

/-- Witness for the amended C2 at a concrete always-failing processor. -/
theorem retry_policy_amended_witness :
    (decompress_convert_to_cog_with_retry (fun _ => .error "boom")
        (fun _ => (1 : ℚ)) 5).1 ≤ 5 ∧
    decompress_convert_to_cog_with_retry (fun _ => .error "boom")
        (fun _ => (1 : ℚ)) 3 =
      (3, [(1 : ℚ) * 2 ^ 0, (1 : ℚ) * 2 ^ 1], .error "boom") ∧
    (process_batch_with_progress procAlwaysFails [itemRetryProbe] 9).procCalls
      = [itemRetryProbe].length ∧
    (process_batch_with_progress procAlwaysFails [itemRetryProbe] 8).failed_files
      = [(itemRetryProbe, "DownloadError")] :=
  retry_policy_amended (fun _ => .error "boom") (fun _ => (1 : ℚ))
    (fun _ => "boom") 5 procAlwaysFails [itemRetryProbe] 9 8 itemRetryProbe
    "DownloadError" (fun _ => rfl) rfl

/-! ## C3: partial-failure isolation at a concrete 5-item chunk -/

/-- The 5-item chunk of the partial-failure scenario. -/
def chunkFive : List WorkItem :=
  [⟨"1981", "u1"⟩, ⟨"1981", "u2"⟩, ⟨"1981", "u3"⟩, ⟨"1981", "u4"⟩,
   ⟨"1981", "u5"⟩]

/-- An item processor for which processing of item 3 (`u3`) always fails
and every other item succeeds. -/
def procThirdFails : WorkItem → Except String Artifact := fun it =>
  if it.url = "u3" then .error "gzip decompress failed"
  else .ok ⟨"cogpath-" ++ it.url, "cogname-" ++ it.url,
            "rawpath-" ++ it.url, "rawname-" ++ it.url⟩

/-- C3: on a 5-item chunk whose third item always fails, the runner still
uploads both artifacts of items 1, 2, 4, 5 (in order), invokes the
processor on all 5 items (the loop is never aborted), ends with 4
completed items and exactly one failed-file entry holding the failed item
and its error string, and writes exactly one ProgressRecord checkpoint
with completed count 4 and that one failure. -/
theorem failed_item_isolation :
    (process_batch_with_progress procThirdFails chunkFive 7).procCalls = 5 ∧
    (process_batch_with_progress procThirdFails chunkFive 7).uploads =
      [("processed-cogs", "1981/cogname-u1"), ("raw-data", "1981/rawname-u1"),
       ("processed-cogs", "1981/cogname-u2"), ("raw-data", "1981/rawname-u2"),
       ("processed-cogs", "1981/cogname-u4"), ("raw-data", "1981/rawname-u4"),
       ("processed-cogs", "1981/cogname-u5"), ("raw-data", "1981/rawname-u5")] ∧
    (process_batch_with_progress procThirdFails chunkFive 7).completed.length
      = 4 ∧
    (process_batch_with_progress procThirdFails chunkFive 7).failed_files =
      [(⟨"1981", "u3"⟩, "gzip decompress failed")] ∧
    (process_batch_with_progress procThirdFails chunkFive 7).checkpoints =
      [⟨4, 4, [(⟨"1981", "u3"⟩, "gzip decompress failed")],
        [("cogpath-u1", "rawpath-u1"), ("cogpath-u2", "rawpath-u2"),
         ("cogpath-u4", "rawpath-u4"), ("cogpath-u5", "rawpath-u5")]⟩] :=
  ⟨rfl, rfl, rfl, rfl, rfl⟩

/-! ## C4: checkpoint placement and local cleanup

`cleanup_local_files` (lines 241–253) removes local files after upload;
its whole loop sits inside `try ... except FileNotFoundError`, whose
handler only prints, so a missing file ends the loop without propagating.
`os.remove` is modelled on a filesystem that is a list of present
paths. -/

/-- Embeds `os.remove(p)`: removes `p` or raises `FileNotFoundError`. -/
def os_remove (fs : List String) (p : String) : Except String (List String) :=
  if p ∈ fs then .ok (fs.erase p) else .error "FileNotFoundError"

/-- The `for (i, j) in file_paths` loop of `cleanup_local_files` (the
`List[Tuple]` branch), without the surrounding `except`: removes each
processed and raw file in turn, propagating the first `os.remove` error
together with the filesystem at that point. -/
def cleanupPairsRaw (fs : List String) :
    List (String × String) → Except (String × List String) (List String)
  | [] => .ok fs
  | (i, j) :: rest =>
    match os_remove fs i with
    | .error e => .error (e, fs)
    | .ok fs1 =>
      match os_remove fs1 j with
      | .error e => .error (e, fs1)
      | .ok fs2 => cleanupPairsRaw fs2 rest

/-- Embeds `cleanup_local_files(file_paths)` for the `List[Tuple]` case
(the case used at checkpoints, `cleanup_local_files(completed)`): the
`except FileNotFoundError` handler prints and returns, so that error is
absorbed; any other exception would propagate.  Returns the resulting
filesystem. -/
def cleanup_local_files (fs : List String)
    (file_paths : List (String × String)) : Except String (List String) :=
  match cleanupPairsRaw fs file_paths with
  | .ok fs' => .ok fs'
  | .error (msg, fs') =>
    if msg = "FileNotFoundError" then .ok fs' else .error msg

theorem cleanupPairsRaw_error_msg (pairs : List (String × String)) :
    ∀ (fs : List String) (e : String × List String),
      cleanupPairsRaw fs pairs = .error e → e.1 = "FileNotFoundError" := by
  induction pairs with
  | nil => intro fs e h; simp [cleanupPairsRaw] at h
  | cons p rest ih =>
    intro fs e h
    obtain ⟨i, j⟩ := p
    rw [cleanupPairsRaw] at h
    by_cases hi : i ∈ fs
    · simp [os_remove, hi] at h
      by_cases hj : j ∈ fs.erase i
      · simp [os_remove, hj] at h
        exact ih _ e h
      · simp [os_remove, hj] at h
        simp [← h]
    · simp [os_remove, hi] at h
      simp [← h]

/-- `cleanup_local_files` never propagates an exception: the only error
its loop can raise is `FileNotFoundError`, which the handler absorbs. -/
theorem cleanup_local_files_isOk (fs : List String)
    (pairs : List (String × String)) :
    (cleanup_local_files fs pairs).isOk = true := by
  rw [cleanup_local_files]
  cases h : cleanupPairsRaw fs pairs with
  | ok fs' => rfl
  | error e =>
    have := cleanupPairsRaw_error_msg pairs fs e h
    obtain ⟨msg, fs'⟩ := e
    simp at this
    simp [this, Except.isOk, Except.toBool]

theorem except_isOk_exists {ε α : Type} {x : Except ε α}
    (h : x.isOk = true) : ∃ a, x = .ok a := by
  cases x with
  | ok a => exact ⟨a, rfl⟩
  | error e => simp [Except.isOk, Except.toBool] at h

/-- Soundness of one checkpoint event: it was written in the success
branch of an item at index `idx` of the chunk, when the running success
count was a multiple of 10 or `idx` was the last index, and
`cleanup_local_files` received the same `completed` list whose length was
passed to `update_progress_file`. -/
def CheckpointSound (proc : WorkItem → Except String Artifact)
    (chunk : List WorkItem) (ev : CheckpointEvent) : Prop :=
  (ev.completedCount % 10 = 0 ∨ ev.idx = chunk.length - 1) ∧
  ev.cleanupArg.length = ev.completedCount ∧
  ∃ it, chunk[ev.idx]? = some it ∧ (proc it).isOk = true

theorem runnerStep_processed_eq (proc : WorkItem → Except String Artifact)
    (total i : Nat) (item : WorkItem) (st : RunnerState)
    (hpc : st.processed_count = st.completed.length) :
    (runnerStep proc total i item st).processed_count =
      (runnerStep proc total i item st).completed.length := by
  cases hp : proc item with
  | error e => simpa [runnerStep, hp] using hpc
  | ok a =>
    simp only [runnerStep, hp]
    split <;> simp [hpc]

theorem runnerStep_checkpoints_sound
    (proc : WorkItem → Except String Artifact) (chunk : List WorkItem)
    (i : Nat) (item : WorkItem) (st : RunnerState)
    (hget : chunk[i]? = some item)
    (hpc : st.processed_count = st.completed.length)
    (hst : ∀ ev ∈ st.checkpoints, CheckpointSound proc chunk ev) :
    ∀ ev ∈ (runnerStep proc chunk.length i item st).checkpoints,
      CheckpointSound proc chunk ev := by
  cases hp : proc item with
  | error e =>
    intro ev hev
    refine hst ev ?_
    simpa [runnerStep, hp] using hev
  | ok a =>
    simp only [runnerStep, hp]
    split
    · rename_i hguard
      intro ev hev
      simp only [List.mem_append, List.mem_singleton] at hev
      rcases hev with hev | rfl
      · exact hst ev (by simpa using hev)
      · refine ⟨?_, by simp, item, by simpa using hget,
          by simp [hp, Except.isOk, Except.toBool]⟩
        simp only [Bool.or_eq_true, beq_iff_eq] at hguard
        rcases hguard with hguard | hguard
        · left
          simp only [List.length_append, List.length_cons, List.length_nil]
          simpa [hpc] using hguard
        · right
          simpa using hguard
    · intro ev hev
      exact hst ev (by simpa using hev)

theorem runnerGo_checkpoints_sound (proc : WorkItem → Except String Artifact)
    (chunk : List WorkItem) :
    ∀ (rest : List WorkItem) (i : Nat) (st : RunnerState),
      chunk.drop i = rest →
      st.processed_count = st.completed.length →
      (∀ ev ∈ st.checkpoints, CheckpointSound proc chunk ev) →
      ∀ ev ∈ (runnerGo proc chunk.length i rest st).checkpoints,
        CheckpointSound proc chunk ev
  | [], _, st => by
    intro _ _ hst
    rw [runnerGo_nil]
    exact hst
  | item :: rest, i, st => by
    intro hdrop hpc hst
    have hdrop' : chunk.drop (i + 1) = rest := by
      rw [← List.tail_drop, hdrop]
      rfl
    have hget : chunk[i]? = some item := by
      have h0 := List.getElem?_drop chunk i 0
      rw [hdrop] at h0
      simpa using h0.symm
    rw [runnerGo_cons_eq]
    exact runnerGo_checkpoints_sound proc chunk rest (i + 1) _ hdrop'
      (runnerStep_processed_eq proc chunk.length i item st hpc)
      (runnerStep_checkpoints_sound proc chunk i item st hget hpc hst)

theorem runnerGo_last_ok_checkpoint (proc : WorkItem → Except String Artifact)
    (total : Nat) :
    ∀ (rest : List WorkItem) (i : Nat) (st : RunnerState)
      (lastIt : WorkItem),
      i + rest.length = total → rest.getLast? = some lastIt →
      (proc lastIt).isOk = true →
      ∃ ev ∈ (runnerGo proc total i rest st).checkpoints,
        ev.idx = total - 1
  | [], _, _, _ => by intro _ hlast _; simp at hlast
  | [a], i, st, lastIt => by
    intro hlen hlast hok
    have ha : lastIt = a := by simpa using hlast.symm
    subst ha
    obtain ⟨u, hu⟩ := except_isOk_exists hok
    have hi : i = total - 1 := by simp at hlen; omega
    subst hi
    rw [runnerGo_cons_eq, runnerGo_nil]
    simp only [runnerStep, hu]
    refine ⟨⟨total - 1,
      (st.completed ++ [(u.cog_file_path, u.raw_file_path)]).length,
      st.failed_files,
      st.completed ++ [(u.cog_file_path, u.raw_file_path)]⟩, ?_, rfl⟩
    simp
  | a :: b :: rest, i, st, lastIt => by
    intro hlen hlast hok
    have hlast' : (b :: rest).getLast? = some lastIt := by
      simpa [List.getLast?_cons_cons] using hlast
    have hlen' : (i + 1) + (b :: rest).length = total := by
      simp at hlen ⊢; omega
    rw [runnerGo_cons_eq]
    exact runnerGo_last_ok_checkpoint proc total (b :: rest) (i + 1) _
      lastIt hlen' hlast' hok

/-- The running count of successfully processed items among the first `n`
items of the chunk. -/
def successCount (proc : WorkItem → Except String Artifact)
    (chunk : List WorkItem) (n : Nat) : Nat :=
  ((chunk.take n).filter (fun it => (proc it).isOk)).length

theorem successCount_succ_ok (proc : WorkItem → Except String Artifact)
    (chunk : List WorkItem) (i : Nat) (item : WorkItem)
    (hget : chunk[i]? = some item) (hok : (proc item).isOk = true) :
    successCount proc chunk (i + 1) = successCount proc chunk i + 1 := by
  rw [successCount, successCount, List.take_succ, hget]
  simp [List.filter_append, hok]

theorem successCount_succ_error (proc : WorkItem → Except String Artifact)
    (chunk : List WorkItem) (i : Nat) (item : WorkItem) (e : String)
    (hget : chunk[i]? = some item) (herr : proc item = .error e) :
    successCount proc chunk (i + 1) = successCount proc chunk i := by
  rw [successCount, successCount, List.take_succ, hget]
  simp [List.filter_append, herr, Except.isOk, Except.toBool]

theorem runnerStep_checkpoints_mono
    (proc : WorkItem → Except String Artifact) (total i : Nat)
    (item : WorkItem) (st : RunnerState) (ev : CheckpointEvent)
    (hev : ev ∈ st.checkpoints) :
    ev ∈ (runnerStep proc total i item st).checkpoints := by
  cases hp : proc item with
  | error e => simpa [runnerStep, hp] using hev
  | ok a =>
    simp only [runnerStep, hp]
    split
    · exact List.mem_append_left _ (by simpa using hev)
    · simpa using hev

theorem runnerGo_checkpoints_mono
    (proc : WorkItem → Except String Artifact) (total : Nat) :
    ∀ (rest : List WorkItem) (i : Nat) (st : RunnerState)
      (ev : CheckpointEvent), ev ∈ st.checkpoints →
      ev ∈ (runnerGo proc total i rest st).checkpoints
  | [], _, st, ev => by
    intro hev
    rw [runnerGo_nil]
    exact hev
  | item :: rest, i, st, ev => by
    intro hev
    rw [runnerGo_cons_eq]
    exact runnerGo_checkpoints_mono proc total rest (i + 1) _ ev
      (runnerStep_checkpoints_mono proc total i item st ev hev)

theorem runnerGo_every_ten_checkpoint
    (proc : WorkItem → Except String Artifact) (chunk : List WorkItem) :
    ∀ (rest : List WorkItem) (i : Nat) (st : RunnerState),
      chunk.drop i = rest →
      st.processed_count = successCount proc chunk i →
      ∀ k it, i ≤ k → chunk[k]? = some it → (proc it).isOk = true →
        successCount proc chunk (k + 1) % 10 = 0 →
        ∃ ev ∈ (runnerGo proc chunk.length i rest st).checkpoints,
          ev.idx = k
  | [], i, st => by
    intro hdrop _ k it hik hget _ _
    have hlen : chunk.length ≤ i := by
      simpa using (List.drop_eq_nil_iff).mp hdrop
    have : chunk[k]? = none := by
      rw [List.getElem?_eq_none]
      omega
    rw [this] at hget
    exact absurd hget (by simp)
  | item :: rest, i, st => by
    intro hdrop hcnt k it hik hget hok hmod
    have hdrop' : chunk.drop (i + 1) = rest := by
      rw [← List.tail_drop, hdrop]
      rfl
    have hgeti : chunk[i]? = some item := by
      have h0 := List.getElem?_drop chunk i 0
      rw [hdrop] at h0
      simpa using h0.symm
    rw [runnerGo_cons_eq]
    rcases Nat.eq_or_lt_of_le hik with rfl | hlt
    · -- the current item is the one completing a multiple of 10
      have hit : it = item := by
        rw [hgeti] at hget
        exact (Option.some.injEq _ _ ▸ hget.symm :)
      subst hit
      obtain ⟨u, hu⟩ := except_isOk_exists hok
      have hsc : successCount proc chunk (i + 1) =
          st.processed_count + 1 := by
        rw [successCount_succ_ok proc chunk i it hgeti hok, hcnt]
      refine ⟨⟨i,
        (st.completed ++ [(u.cog_file_path, u.raw_file_path)]).length,
        st.failed_files,
        st.completed ++ [(u.cog_file_path, u.raw_file_path)]⟩, ?_, rfl⟩
      apply runnerGo_checkpoints_mono proc chunk.length rest (i + 1)
      simp only [runnerStep, hu]
      have hguard :
          ((st.processed_count + 1) % 10 == 0 ||
            i == chunk.length - 1) = true := by
        have h10 : (st.processed_count + 1) % 10 = 0 := by
          rw [← hsc]; exact hmod
        simp [h10]
      simp only [hguard, if_true]
      exact List.mem_append_right _ (by simp)
    · -- the index lies strictly beyond the current item
      cases hp : proc item with
      | error e =>
        have hcnt' :
            (runnerStep proc chunk.length i item st).processed_count =
              successCount proc chunk (i + 1) := by
          rw [successCount_succ_error proc chunk i item e hgeti hp]
          simpa [runnerStep, hp] using hcnt
        exact runnerGo_every_ten_checkpoint proc chunk rest (i + 1) _
          hdrop' hcnt' k it hlt hget hok hmod
      | ok a =>
        have hcnt' :
            (runnerStep proc chunk.length i item st).processed_count =
              successCount proc chunk (i + 1) := by
          rw [successCount_succ_ok proc chunk i item hgeti
            (by simp [hp, Except.isOk, Except.toBool])]
          have : (runnerStep proc chunk.length i item st).processed_count =
              st.processed_count + 1 := by
            simp only [runnerStep, hp]
            split <;> rfl
          rw [this, hcnt]
        exact runnerGo_every_ten_checkpoint proc chunk rest (i + 1) _
          hdrop' hcnt' k it hlt hget hok hmod

/-- A one-item chunk whose only item always fails, for the checkpoint
counterexample. -/
def itemLastFail : WorkItem := ⟨"1982", "https://d/1982/last.tif.gz"⟩

/-- C4 (counterexample): a one-item chunk whose only — hence last — item
fails: the item is processed and recorded in `failed_files`, but the
failure branch `continue`s past the checkpoint block, so no checkpoint
ProgressRecord is ever written, contradicting "unconditionally after
processing the last item of the chunk — including when that last item
fails". -/
theorem checkpoint_last_failure_counterexample :
    (process_batch_with_progress (fun _ => .error "DownloadError")
        [itemLastFail] 4).procCalls = 1 ∧
    (process_batch_with_progress (fun _ => .error "DownloadError")
        [itemLastFail] 4).failed_files = [(itemLastFail, "DownloadError")] ∧
    (process_batch_with_progress (fun _ => .error "DownloadError")
        [itemLastFail] 4).checkpoints = [] :=
  ⟨rfl, rfl, rfl⟩

/-- C4 (amended): the runner writes a checkpoint ProgressRecord exactly
from the success branch of the loop: (1) every checkpoint was written
right after a successfully processed item, when the running completed
count was a multiple of 10 or the item was the chunk's last, and its
cleanup call received the same `completed` list whose length went into
the record; (2) whenever a successfully processed item brings the
completed count to a multiple of 10 a checkpoint is written at its index;
(3) if the chunk's last item succeeds, a checkpoint is written at the
last index; (4) if the chunk's last item fails, no checkpoint is written
at the last index (the end-of-chunk checkpoint is skipped); (5) the
checkpoint-time purge `cleanup_local_files` absorbs `FileNotFoundError`,
so a missing local file is logged, not fatal. -/
theorem checkpoint_policy_amended (proc : WorkItem → Except String Artifact)
    (chunk : List WorkItem) (tid : Nat) (fs : List String)
    (pairs : List (String × String)) :
    (∀ ev ∈ (process_batch_with_progress proc chunk tid).checkpoints,
      CheckpointSound proc chunk ev) ∧
    (∀ k it, chunk[k]? = some it → (proc it).isOk = true →
      successCount proc chunk (k + 1) % 10 = 0 →
      ∃ ev ∈ (process_batch_with_progress proc chunk tid).checkpoints,
        ev.idx = k) ∧
    (∀ lastIt, chunk.getLast? = some lastIt → (proc lastIt).isOk = true →
      ∃ ev ∈ (process_batch_with_progress proc chunk tid).checkpoints,
        ev.idx = chunk.length - 1) ∧
    (∀ lastIt e, chunk.getLast? = some lastIt → proc lastIt = .error e →
      ∀ ev ∈ (process_batch_with_progress proc chunk tid).checkpoints,
        ev.idx ≠ chunk.length - 1) ∧
    (cleanup_local_files fs pairs).isOk = true := by
  have hsound : ∀ ev ∈ (process_batch_with_progress proc chunk tid).checkpoints,
      CheckpointSound proc chunk ev :=
    runnerGo_checkpoints_sound proc chunk chunk 0 initRunnerState rfl rfl
      (by simp [initRunnerState])
  refine ⟨hsound, ?_, ?_, ?_, cleanup_local_files_isOk fs pairs⟩
  · intro k it hget hok hmod
    exact runnerGo_every_ten_checkpoint proc chunk chunk 0 initRunnerState
      rfl rfl k it (Nat.zero_le k) hget hok hmod
  · intro lastIt hlast hok
    exact runnerGo_last_ok_checkpoint proc chunk.length chunk 0
      initRunnerState lastIt (by simp) hlast hok
  · intro lastIt e hlast herr ev hev hidx
    obtain ⟨_, _, it, hit, hitok⟩ := hsound ev hev
    rw [hidx] at hit
    have hlast' : chunk[chunk.length - 1]? = some lastIt := by
      rw [← List.getLast?_eq_getElem?]
      exact hlast
    rw [hlast'] at hit
    have hil : it = lastIt := (Option.some_inj.mp hit).symm
    rw [hil, herr] at hitok
    simp [Except.isOk, Except.toBool] at hitok

/-- An item processor that succeeds on every item, for the checkpoint
witness. -/
def procAlwaysOk : WorkItem → Except String Artifact :=
  fun it => .ok ⟨"c-" ++ it.url, "cn-" ++ it.url,
                 "r-" ++ it.url, "rn-" ++ it.url⟩

/-- Witness for the amended C4 at a concrete one-item chunk whose item
succeeds, and a concrete filesystem with a missing file. -/
theorem checkpoint_policy_amended_witness :
    (∃ ev ∈ (process_batch_with_progress procAlwaysOk [⟨"1983", "w1"⟩]
        2).checkpoints,
      ev.idx = ([(⟨"1983", "w1"⟩ : WorkItem)] : List WorkItem).length - 1) ∧
    (cleanup_local_files ["a"] [("a", "b")]).isOk = true := by
  have h := checkpoint_policy_amended procAlwaysOk [⟨"1983", "w1"⟩] 2 ["a"]
    [("a", "b")]
  exact ⟨h.2.2.1 ⟨"1983", "w1"⟩ rfl rfl, h.2.2.2.2⟩

/-! ## Durable store client (`processing.py`, `upload_blob_to_azure`)

The blob store is an association list from `(container, blob name)` to
content; the local filesystem with contents is an association list from
path to content. -/

/-- A blob store: `(container, blob name) ↦ content`. -/
def BlobStore : Type := List ((String × String) × String)

/-- Embeds the Azure SDK call `BlobClient.upload_blob(data,
overwrite=overwrite)`: when the blob already exists and `overwrite` is
false — which is the SDK's default when the argument is omitted — the
call raises `ResourceExistsError`; otherwise the blob is created or
replaced with the new content. -/
def sdk_upload_blob (store : BlobStore) (container blobName content : String)
    (overwrite : Bool) : Except String BlobStore :=
  match List.lookup (container, blobName) store with
  | some _ =>
    if overwrite then
      .ok (((container, blobName), content) ::
        store.filter (fun e => !(e.1 == (container, blobName))))
    else .error "ResourceExistsError"
  | none => .ok (((container, blobName), content) :: store)

/-- Embeds `upload_blob_to_azure(container_name, file_path, file_name)`
(lines 206–239): opens the local file at `file_path` (raising
`FileNotFoundError` if absent) and calls `blob_client.upload_blob(data)` —
with no `overwrite` argument, hence the SDK default `overwrite=False`. -/
def upload_blob_to_azure (fs : List (String × String)) (store : BlobStore)
    (container_name file_path file_name : String) :
    Except String BlobStore :=
  match List.lookup file_path fs with
  | none => .error "FileNotFoundError"
  | some data => sdk_upload_blob store container_name file_name data false

/-- C1: uploading to the same blob key twice with different contents: the
first upload succeeds, but the second raises `ResourceExistsError` —
because `upload_blob_to_azure` calls `upload_blob` without
`overwrite=True` — and the store keeps the first content.  Evaluated at
the key `batch-logs/7.json`, the very key `update_progress_file` rewrites
at every checkpoint of task 7. -/
theorem upload_no_overwrite_bug :
    upload_blob_to_azure [("p1", "v1"), ("p2", "v2")] [] "batch-logs" "p1"
        "7.json" = .ok [(("batch-logs", "7.json"), "v1")] ∧
    upload_blob_to_azure [("p1", "v1"), ("p2", "v2")]
        [(("batch-logs", "7.json"), "v1")] "batch-logs" "p2" "7.json" =
      .error "ResourceExistsError" ∧
    List.lookup ("batch-logs", "7.json")
      ([(("batch-logs", "7.json"), "v1")] : BlobStore) = some "v1" :=
  ⟨rfl, rfl, rfl⟩

/-! ## Item processor (`processing.py`, `clip_to_cog`,
`decompress_convert_to_cog`)

The network download, gzip decompression and rasterio work are external
effects; they enter as parameters (`download` embeds
`unzip_file(work_item['url'])`, `clipBody` the outcome of the rasterio
block inside `clip_to_cog`).  The filename derivation
`url.split(year_dir)[1].replace(".gz", "")` is embedded exactly:
`str.split(sep)` splits on every occurrence of the separator left to
right, and raises `IndexError` via `[1]` when the separator is absent;
`str.replace` replaces every occurrence. -/

/-- The scanning loop of Python `str.split(sep)` for a separator
`s0 :: stail`, with explicit fuel for structural recursion (each step
consumes at least one character, so `fuel = s.length` suffices). -/
def pySplitGo (s0 : Char) (stail : List Char) :
    Nat → List Char → List Char → List (List Char)
  | 0, acc, _ => [acc.reverse]
  | _ + 1, acc, [] => [acc.reverse]
  | fuel + 1, acc, c :: rest =>
    if (s0 :: stail) == (c :: rest).take (stail.length + 1) then
      acc.reverse :: pySplitGo s0 stail fuel [] (rest.drop stail.length)
    else
      pySplitGo s0 stail fuel (c :: acc) rest

/-- Embeds Python `s.split(sep)` for a nonempty separator (an empty
separator raises `ValueError` in Python and never occurs here). -/
def pySplit (s sep : String) : List String :=
  match sep.data with
  | [] => []
  | c :: cs => (pySplitGo c cs s.data.length [] s.data).map (fun l => ⟨l⟩)

/-- Embeds Python `sep.join(parts)`. -/
def pyJoin (sep : String) : List String → String
  | [] => ""
  | [s] => s
  | s :: rest => s ++ sep ++ pyJoin sep rest

/-- Embeds Python `s.replace(old, new)` for a nonempty `old`: replaces
every occurrence. -/
def pyReplace (s old new : String) : String := pyJoin new (pySplit s old)

/-- Embeds `url.split(year_dir)[1].replace(".gz", "")` of
`decompress_convert_to_cog` (line 132): `none` is Python's `IndexError`
when `year_dir` does not occur in the url. -/
def raw_file_name_of (url year : String) : Option String :=
  ((pySplit url (year ++ "/"))[1]?).map (fun s => pyReplace s ".gz" "")

/-- Embeds `os.path.join(a, b)` for the path shapes used here (`b` never
absolute). -/
def pathJoin (a b : String) : String :=
  if (a.data.getLast? == some '/') then a ++ b else a ++ "/" ++ b

/-- Embeds `clip_to_cog` (lines 40–94): the entire rasterio body sits in
`try ... except Exception as e: print(...)`, so every exception from the
clip / reprojection / re-encode steps is caught and only printed — the
function always returns `None`, and the caller cannot observe the
failure. -/
def clip_to_cog (clipBody : Except String Unit) : Except String Unit :=
  match clipBody with
  | .ok _ => .ok ()
  | .error _ => .ok ()

/-- Embeds `decompress_convert_to_cog(work_item, directory)` (lines
97–149): derives the raw file name from the url (IndexError if the year
segment is absent), downloads and decompresses (`download`), writes the
raw file, then calls `clip_to_cog` and returns the artifact paths. -/
def decompress_convert_to_cog (work_item : WorkItem) (directory : String)
    (download : Except String String) (clipBody : Except String Unit) :
    Except String Artifact :=
  match raw_file_name_of work_item.url work_item.year with
  | none => .error "IndexError: list index out of range"
  | some raw_file_name => do
    let _decompressed ← download
    let raw_file_path :=
      pathJoin (pathJoin directory "raw-data") raw_file_name
    let cog_file_name := "nigeria-cog-" ++ raw_file_name
    let clipped_tiff_path :=
      pathJoin (directory ++ "processed-cogs") cog_file_name
    let _ ← clip_to_cog clipBody
    .ok ⟨clipped_tiff_path, cog_file_name, raw_file_path, raw_file_name⟩

/-- C5 (counterexample): a failing rasterio body (steps 3–5) is not
surfaced: `clip_to_cog` returns normally and `decompress_convert_to_cog`
returns the artifact paths as a success — there is no
`ClipConversionError` anywhere, so the caller does not observe the item
as failed; the clip failure is silently reported as success. -/
theorem clip_error_swallowed_counterexample :
    clip_to_cog (.error "rasterio.errors.RasterioIOError: read failed") =
      .ok () ∧
    decompress_convert_to_cog
        ⟨"1995", "https://d/1995/chirps-v2.0.1995.01.01.tif.gz"⟩
        "../data/nigeria_tifs/" (.ok "TIFFDATA")
        (.error "rasterio.errors.RasterioIOError: read failed") =
      .ok ⟨"../data/nigeria_tifs/processed-cogs/nigeria-cog-chirps-v2.0.1995.01.01.tif",
           "nigeria-cog-chirps-v2.0.1995.01.01.tif",
           "../data/nigeria_tifs/raw-data/chirps-v2.0.1995.01.01.tif",
           "chirps-v2.0.1995.01.01.tif"⟩ :=
  ⟨rfl, rfl⟩

/-- C5 (amended): every exception inside the clip / reprojection /
re-encode body is caught by `clip_to_cog`'s blanket `except` and only
printed, so no raw low-level exception propagates out of the clip step;
but it is not converted to a typed `ClipConversionError` (no such type
exists in the code): `clip_to_cog` returns normally either way and
`decompress_convert_to_cog` returns the artifact paths as a success, so
the caller observes a failing clip as a successfully processed item. -/
theorem clip_errors_swallowed_amended (clipBody : Except String Unit)
    (work_item : WorkItem) (directory : String) (content raw : String)
    (hname : raw_file_name_of work_item.url work_item.year = some raw) :
    clip_to_cog clipBody = .ok () ∧
    decompress_convert_to_cog work_item directory (.ok content) clipBody =
      .ok ⟨pathJoin (directory ++ "processed-cogs") ("nigeria-cog-" ++ raw),
           "nigeria-cog-" ++ raw,
           pathJoin (pathJoin directory "raw-data") raw, raw⟩ := by
  cases clipBody <;>
    simp only [decompress_convert_to_cog, hname, clip_to_cog] <;>
    exact ⟨trivial, rfl⟩

/-- Witness for the amended C5 at a concrete CHIRPS url and a failing
clip body. -/
theorem clip_errors_swallowed_amended_witness :
    raw_file_name_of "https://d/1995/chirps-v2.0.1995.01.01.tif.gz" "1995" =
      some "chirps-v2.0.1995.01.01.tif" ∧
    (clip_to_cog (.error "boom") = .ok () ∧
     decompress_convert_to_cog
         ⟨"1995", "https://d/1995/chirps-v2.0.1995.01.01.tif.gz"⟩
         "../data/nigeria_tifs/" (.ok "D") (.error "boom") =
       .ok ⟨pathJoin ("../data/nigeria_tifs/" ++ "processed-cogs")
              ("nigeria-cog-" ++ "chirps-v2.0.1995.01.01.tif"),
            "nigeria-cog-" ++ "chirps-v2.0.1995.01.01.tif",
            pathJoin (pathJoin "../data/nigeria_tifs/" "raw-data")
              "chirps-v2.0.1995.01.01.tif",
            "chirps-v2.0.1995.01.01.tif"⟩) :=
  ⟨by decide,
   clip_errors_swallowed_amended (.error "boom")
     ⟨"1995", "https://d/1995/chirps-v2.0.1995.01.01.tif.gz"⟩
     "../data/nigeria_tifs/" "D" "chirps-v2.0.1995.01.01.tif" (by decide)⟩

/-! ## Progress monitor (`progress_monitor.py`)

A progress record as parsed from a `<task_id>.json` blob.  The Python
code reads every field with `task.get(key, default)`, so each field is an
`Option` here and the `.get` default is applied at use sites.
Timestamps are in seconds (`datetime` differences compared against
`timedelta(minutes=30)` = 1800 s). -/

/-- A parsed ProgressRecord as consumed by the monitor. -/
structure TaskRecord where
  iso_timestamp : Option Int
  batch_number : Option String
  completed : Option Nat
  failed_files : Option (List (WorkItem × String))
deriving DecidableEq, Repr

/-- The summary dict returned by `calculate_overall_progress`. -/
structure ProgressSummary where
  total_completed : Nat
  total_failed : Nat
  estimated_total : Nat
  completion_percentage : ℚ
  active_tasks : Nat
  completed_tasks : Nat
  failed_tasks : Nat
  stuck_tasks : List String
  total_tasks : Nat
deriving DecidableEq, Repr

/-- The `for task in progress_data` loop of `calculate_overall_progress`,
accumulating `(total_completed, total_failed, active_tasks,
stuck_tasks)`.  A missing `iso_timestamp` defaults to
`current_time.isoformat()`, hence `getD current_time`; the staleness test
is `time_since_update > timedelta(minutes=30)`, strictly. -/
def aggregateGo (current_time : Int)
    (acc : Nat × Nat × Nat × List String) :
    List TaskRecord → Nat × Nat × Nat × List String
  | [] => acc
  | task :: rest =>
    let tc := acc.1 + task.completed.getD 0
    let tf := acc.2.1 + (task.failed_files.getD []).length
    let last_update := task.iso_timestamp.getD current_time
    if current_time - last_update > 1800 then
      aggregateGo current_time
        (tc, tf, acc.2.2.1,
         acc.2.2.2 ++ [task.batch_number.getD "unknown"]) rest
    else
      aggregateGo current_time (tc, tf, acc.2.2.1 + 1, acc.2.2.2) rest

/-- Embeds `calculate_overall_progress(progress_data)` (lines 46–95) with
`current_time` passed explicitly (the source reads `datetime.now()`).
The `completed_tasks` and `failed_tasks` counters are declared and never
incremented in the source, and the Python float division of
`completion_percentage` is modelled as exact rational division. -/
def calculate_overall_progress (progress_data : List TaskRecord)
    (current_time : Int) : ProgressSummary :=
  let r := aggregateGo current_time (0, 0, 0, []) progress_data
  let estimated_total := progress_data.length * 550
  { total_completed := r.1
    total_failed := r.2.1
    estimated_total := estimated_total
    completion_percentage :=
      if estimated_total > 0 then
        (r.1 : ℚ) / (estimated_total : ℚ) * 100
      else 0
    active_tasks := r.2.2.1
    completed_tasks := 0
    failed_tasks := 0
    stuck_tasks := r.2.2.2
    total_tasks := progress_data.length }

theorem aggregateGo_spec (now : Int) :
    ∀ (records : List TaskRecord) (acc : Nat × Nat × Nat × List String),
      aggregateGo now acc records =
        (acc.1 + (records.map (fun t => t.completed.getD 0)).sum,
         acc.2.1 +
           (records.map (fun t => (t.failed_files.getD []).length)).sum,
         acc.2.2.1 + (records.filter
           (fun t => !decide (now - t.iso_timestamp.getD now > 1800))).length,
         acc.2.2.2 ++ (records.filter
           (fun t => decide (now - t.iso_timestamp.getD now > 1800))).map
             (fun t => t.batch_number.getD "unknown"))
  | [], acc => by simp [aggregateGo]
  | task :: rest, acc => by
    by_cases h : now - task.iso_timestamp.getD now > 1800
    · rw [aggregateGo, if_pos h, aggregateGo_spec now rest]
      simp [h]
      omega
    · rw [aggregateGo, if_neg h, aggregateGo_spec now rest]
      simp [h]
      omega

/-- C7: the monitor classifies a task as stalled exactly when
`now - iso_timestamp` strictly exceeds the 30-minute (1800 s) staleness
window, and counts every other task as active; the estimated total is the
record count times the hardcoded chunk size 550.  In particular a record
45 minutes (2700 s) old is stalled and one 10 minutes (600 s) old is
active. -/
theorem staleness_classification (records : List TaskRecord) (now : Int) :
    (calculate_overall_progress records now).stuck_tasks =
      (records.filter
        (fun t => decide (now - t.iso_timestamp.getD now > 1800))).map
          (fun t => t.batch_number.getD "unknown") ∧
    (calculate_overall_progress records now).active_tasks =
      (records.filter
        (fun t => !decide (now - t.iso_timestamp.getD now > 1800))).length ∧
    (calculate_overall_progress records now).estimated_total =
      records.length * 550 ∧
    (calculate_overall_progress
        [⟨some (now - 2700), some "t45", some 5, some []⟩] now).stuck_tasks
      = ["t45"] ∧
    (calculate_overall_progress
        [⟨some (now - 2700), some "t45", some 5, some []⟩] now).active_tasks
      = 0 ∧
    (calculate_overall_progress
        [⟨some (now - 600), some "t10", some 3, some []⟩] now).stuck_tasks
      = [] ∧
    (calculate_overall_progress
        [⟨some (now - 600), some "t10", some 3, some []⟩] now).active_tasks
      = 1 := by
  refine ⟨?_, ?_, ?_, ?_, ?_, ?_, ?_⟩ <;>
    simp [calculate_overall_progress, aggregateGo_spec now]

/-! ## Fetching progress records (`progress_monitor.py`,
`get_all_progress_files`)

The container listing is a list of `(blob name, parse outcome)` pairs,
where the outcome embeds `download_blob().readall()` followed by
`json.loads(content)`.  The `list_blobs(name_starts_with="task_")` call
filters by name prefix; the loop keeps only names ending in `.json`.
The single `try` wraps the whole loop: the first failing download/parse
jumps to the `except`, which prints and falls through to
`return progress_data` — so the records accumulated before the failure
are returned and everything after it is dropped. -/

/-- Embeds Python `s.startswith(pre)`. -/
def strStartsWith (s pre : String) : Bool :=
  s.data.take pre.data.length == pre.data

/-- Embeds Python `s.endswith(suf)`. -/
def strEndsWith (s suf : String) : Bool :=
  s.data.reverse.take suf.data.length == suf.data.reverse

/-- The `for blob in blob_list` loop of `get_all_progress_files`,
accumulating parsed records (reversed); a failing download/parse aborts
the loop via the surrounding `except`, returning what was accumulated. -/
def readProgressGo (acc : List TaskRecord) :
    List (String × Except String TaskRecord) → List TaskRecord
  | [] => acc.reverse
  | (name, content) :: rest =>
    if strEndsWith name ".json" then
      match content with
      | .ok r => readProgressGo (r :: acc) rest
      | .error _ => acc.reverse
    else readProgressGo acc rest

/-- Embeds `get_all_progress_files()` over the listing of the
`batch-logs` container. -/
def get_all_progress_files
    (blobs : List (String × Except String TaskRecord)) :
    List TaskRecord :=
  readProgressGo [] (blobs.filter (fun b => strStartsWith b.1 "task_"))

/-- The records the loop would extract from a listing fragment if nothing
failed: those whose name passes both filters and whose content parses. -/
def goodRecords (blobs : List (String × Except String TaskRecord)) :
    List TaskRecord :=
  (blobs.filter (fun b => strStartsWith b.1 "task_")).filterMap
    (fun b => if strEndsWith b.1 ".json" then b.2.toOption else none)

/-- Example well-formed records for the aggregator-skip scenario. -/
def recA : TaskRecord := ⟨some 0, some "task_a", some 1, some []⟩

/-- A second well-formed record, distinct from `recA`. -/
def recC : TaskRecord := ⟨some 0, some "task_c", some 2, some []⟩

/-- C8 (counterexample): with a malformed record between two well-formed
ones, the fetch returns only the record read before the malformed one:
the loop is aborted by the exception, so the well-formed record after it
is dropped, not "skipped and continued past". -/
theorem aggregator_skip_counterexample :
    get_all_progress_files
        [("task_a.json", .ok recA),
         ("task_b.json", .error "json.decoder.JSONDecodeError"),
         ("task_c.json", .ok recC)] = [recA] ∧
    recC ∉ get_all_progress_files
        [("task_a.json", .ok recA),
         ("task_b.json", .error "json.decoder.JSONDecodeError"),
         ("task_c.json", .ok recC)] :=
  ⟨rfl, by decide⟩

theorem readProgressGo_all_ok
    (l : List (String × Except String TaskRecord)) :
    ∀ acc : List TaskRecord,
      (∀ b ∈ l, strEndsWith b.1 ".json" = true → b.2.isOk = true) →
      readProgressGo acc l = acc.reverse ++
        l.filterMap
          (fun b => if strEndsWith b.1 ".json" then b.2.toOption else none) := by
  induction l with
  | nil => intro acc _; simp [readProgressGo]
  | cons b rest ih =>
    obtain ⟨name, content⟩ := b
    intro acc h
    by_cases hj : strEndsWith name ".json" = true
    · obtain ⟨r, hr⟩ := except_isOk_exists (h (name, content) (by simp) hj)
      subst hr
      simp only [readProgressGo, if_pos hj]
      rw [ih (r :: acc) (fun b hb hbj => h b (by simp [hb]) hbj)]
      simp [hj, Except.toOption]
    · simp only [readProgressGo, if_neg hj]
      rw [ih acc (fun b hb hbj => h b (by simp [hb]) hbj)]
      simp [hj]

theorem readProgressGo_abort (bn e : String)
    (post : List (String × Except String TaskRecord))
    (hbn : strEndsWith bn ".json" = true)
    (pre : List (String × Except String TaskRecord)) :
    ∀ acc : List TaskRecord,
      (∀ b ∈ pre, strEndsWith b.1 ".json" = true → b.2.isOk = true) →
      readProgressGo acc (pre ++ (bn, .error e) :: post) = acc.reverse ++
        pre.filterMap
          (fun b => if strEndsWith b.1 ".json" then b.2.toOption else none) := by
  induction pre with
  | nil =>
    intro acc _
    simp only [List.nil_append, readProgressGo, if_pos hbn]
    simp
  | cons b pre ih =>
    obtain ⟨name, content⟩ := b
    intro acc h
    by_cases hj : strEndsWith name ".json" = true
    · obtain ⟨r, hr⟩ := except_isOk_exists (h (name, content) (by simp) hj)
      subst hr
      simp only [List.cons_append, readProgressGo, if_pos hj,
        List.append_eq]
      rw [ih (r :: acc) (fun b hb hbj => h b (by simp [hb]) hbj)]
      simp [hj, Except.toOption]
    · simp only [List.cons_append, readProgressGo, if_neg hj,
        List.append_eq]
      rw [ih acc (fun b hb hbj => h b (by simp [hb]) hbj)]
      simp [hj]

/-- C8 (amended): `get_all_progress_files` never raises — it is total and
returns a list in every case — and: (1) when every listed record parses,
all well-formed records are returned in order; (2) when a record is
malformed, the fetch returns exactly the well-formed records read
*before* it and drops everything after it (the exception aborts the loop;
it does not skip and continue). -/
theorem aggregator_abort_amended
    (blobs pre post : List (String × Except String TaskRecord))
    (bn e : String)
    (hall : ∀ b ∈ blobs, strStartsWith b.1 "task_" = true →
      strEndsWith b.1 ".json" = true → b.2.isOk = true)
    (hpre : ∀ b ∈ pre, strStartsWith b.1 "task_" = true →
      strEndsWith b.1 ".json" = true → b.2.isOk = true)
    (hbn1 : strStartsWith bn "task_" = true)
    (hbn2 : strEndsWith bn ".json" = true) :
    get_all_progress_files blobs = goodRecords blobs ∧
    get_all_progress_files (pre ++ (bn, .error e) :: post) =
      goodRecords pre := by
  constructor
  · rw [get_all_progress_files, goodRecords,
      readProgressGo_all_ok (blobs.filter (fun b => strStartsWith b.1 "task_"))
        [] (fun b hb hbj =>
          hall b (List.mem_filter.mp hb).1 (List.mem_filter.mp hb).2 hbj)]
    simp
  · rw [get_all_progress_files, goodRecords, List.filter_append,
      List.filter_cons, if_pos (by simpa using hbn1)]
    rw [readProgressGo_abort bn e
        (post.filter (fun b => strStartsWith b.1 "task_")) hbn2
        (pre.filter (fun b => strStartsWith b.1 "task_"))
        [] (fun b hb hbj =>
          hpre b (List.mem_filter.mp hb).1 (List.mem_filter.mp hb).2 hbj)]
    simp

/-- Witness for the amended C8 at a concrete listing with a malformed
middle record. -/
theorem aggregator_abort_amended_witness :
    get_all_progress_files [("task_a.json", .ok recA)] =
      goodRecords [("task_a.json", .ok recA)] ∧
    get_all_progress_files
        ([("task_a.json", .ok recA)] ++
          ("task_b.json", .error "json.decoder.JSONDecodeError") ::
            [("task_c.json", .ok recC)]) =
      goodRecords [("task_a.json", .ok recA)] := by
  have h := aggregator_abort_amended [("task_a.json", .ok recA)]
    [("task_a.json", .ok recA)] [("task_c.json", .ok recC)]
    "task_b.json" "json.decoder.JSONDecodeError"
    (by decide) (by decide) (by decide) (by decide)
  exact h

/-! ## Distributed task entry point (`batch_task_runner.py`)

`main()` reads the work-items file and then executes
`process_batch_with_progress(work_items)` — one positional argument,
while the callee's signature (processing.py line 256) is
`process_batch_with_progress(work_items_chunk, task_id)` with two
required positional parameters.  In Python, calling a function with
fewer positional arguments than its required parameters raises
`TypeError` at call time, before the callee body runs; the `except
Exception` in `main` catches it and calls `sys.exit(1)`. -/

/-- Embeds Python's call-time arity check: a call providing fewer
positional arguments than the callee's required positional parameters
raises `TypeError` before the callee runs. -/
def python_call_arity (required provided : Nat) : Except String Unit :=
  if provided < required then
    .error "TypeError: missing required positional argument"
  else .ok ()

/-- The number of required positional parameters of
`process_batch_with_progress(work_items_chunk, task_id)`. -/
def process_batch_required_args : Nat := 2

/-- Embeds `get_work_items_from_file()`: `os.environ.get` may return
`None` (making `os.path.join` raise `TypeError`), the file may be
missing (`FileNotFoundError`), its content may fail to parse
(re-raised as `ValueError`), or parse to a work-item list. -/
def get_work_items_from_file (task_working_dir : Option String)
    (file : Option (Except String (List WorkItem))) :
    Except String (List WorkItem) :=
  match task_working_dir with
  | none => .error "TypeError: join() argument must be str, not NoneType"
  | some _ =>
    match file with
    | none => .error "FileNotFoundError: Work items file not found"
    | some (.error e) =>
      .error ("ValueError: Failed to read or parse work_items.json: " ++ e)
    | some (.ok items) => .ok items

/-- Embeds `batch_task_runner.main()` (lines 42–63): the `try` body sets
up directories, reads the work items, then calls
`process_batch_with_progress(work_items)` with a single positional
argument against a two-parameter signature; `except Exception` maps any
raised error to `sys.exit(1)`, and falling through gives exit code 0. -/
def batch_task_runner_main (task_working_dir : Option String)
    (file : Option (Except String (List WorkItem))) : Nat :=
  let body : Except String Unit := do
    let _work_items ← get_work_items_from_file task_working_dir file
    let _ ← python_call_arity process_batch_required_args 1
    .ok ()
  match body with
  | .ok _ => 0
  | .error _ => 1

/-- C9: for every environment and every work-items file content,
`batch_task_runner.main` exits with status 1: even when the file parses,
the single-argument call to the two-parameter
`process_batch_with_progress` raises `TypeError`, which the top-level
handler turns into `sys.exit(1)`; the success path (exit 0) is
unreachable. -/
theorem task_runner_always_exits_one (task_working_dir : Option String)
    (file : Option (Except String (List WorkItem))) :
    batch_task_runner_main task_working_dir file = 1 ∧
    python_call_arity process_batch_required_args 1 =
      .error "TypeError: missing required positional argument" := by
  refine ⟨?_, rfl⟩
  cases hw : get_work_items_from_file task_working_dir file with
  | error e =>
    simp only [batch_task_runner_main, hw]
    rfl
  | ok items =>
    simp only [batch_task_runner_main, hw]
    rfl

/-! ## Dispatcher task ids vs. the monitor's listing filter
(`batch_job_creator.py` line 94, `processing.py` lines 193–201,
`progress_monitor.py` line 32)

The dispatcher assigns `task_id = f"task{i:03d}"` — `task` directly
followed by the zero-padded decimal index, no underscore.
`update_progress_file` stores each checkpoint under `f"{task_id}.json"`.
The monitor lists `batch-logs` with `name_starts_with="task_"`. -/

/-- The decimal digit characters. -/
def decDigitChar (d : Nat) : Char :=
  match d with
  | 0 => '0' | 1 => '1' | 2 => '2' | 3 => '3' | 4 => '4'
  | 5 => '5' | 6 => '6' | 7 => '7' | 8 => '8' | _ => '9'

/-- The decimal digit characters of `n`, most significant first. -/
def natDecChars (n : Nat) : List Char :=
  if _h : n < 10 then [decDigitChar n]
  else natDecChars (n / 10) ++ [decDigitChar (n % 10)]
termination_by n
decreasing_by exact Nat.div_lt_self (by omega) (by omega)

/-- Embeds the Python format `f"{i:03d}"`: the decimal digits of `i`,
left-padded with `'0'` to width 3. -/
def py_format_03d (i : Nat) : String :=
  ⟨List.replicate (3 - (natDecChars i).length) '0' ++ natDecChars i⟩

/-- Embeds `task_id = f"task{i:03d}"` (batch_job_creator.py line 94). -/
def dispatcher_task_id (i : Nat) : String := "task" ++ py_format_03d i

/-- Embeds the blob name `f"{task_id}.json"` that
`update_progress_file` uploads each checkpoint to (processing.py lines
194, 201). -/
def update_progress_blob_name (task_id : String) : String :=
  task_id ++ ".json"

theorem decDigitChar_ne_underscore (d : Nat) : decDigitChar d ≠ '_' := by
  rcases d with _ | _ | _ | _ | _ | _ | _ | _ | _ | d <;>
    first
    | decide
    | (intro hcon; simp [decDigitChar] at hcon)

theorem natDecChars_head_digit (n : Nat) :
    ∃ d, (natDecChars n).head? = some (decDigitChar d) := by
  induction n using natDecChars.induct with
  | case1 n h =>
    exact ⟨n, by rw [natDecChars]; simp [h]⟩
  | case2 n h ih =>
    obtain ⟨d, hd⟩ := ih
    refine ⟨d, ?_⟩
    rw [natDecChars, dif_neg h, List.head?_append, hd]
    rfl

theorem py_format_03d_head (i : Nat) :
    ∃ c, (py_format_03d i).data.head? = some c ∧ c ≠ '_' := by
  have hdata : (py_format_03d i).data =
      List.replicate (3 - (natDecChars i).length) '0' ++ natDecChars i :=
    rfl
  rw [hdata]
  cases h3 : 3 - (natDecChars i).length with
  | zero =>
    obtain ⟨d, hd⟩ := natDecChars_head_digit i
    exact ⟨decDigitChar d, by simp [hd], decDigitChar_ne_underscore d⟩
  | succ k =>
    exact ⟨'0', by simp [List.replicate_succ], by decide⟩

theorem dispatcher_blob_not_prefixed (i : Nat) :
    strStartsWith (update_progress_blob_name (dispatcher_task_id i))
      "task_" = false := by
  obtain ⟨c, hc, hcne⟩ := py_format_03d_head i
  obtain ⟨tail, htail⟩ : ∃ t, (py_format_03d i).data = c :: t := by
    cases hpf : (py_format_03d i).data with
    | nil => rw [hpf] at hc; simp at hc
    | cons a t =>
      rw [hpf] at hc
      simp at hc
      exact ⟨t, by rw [hc]⟩
  rw [strStartsWith, update_progress_blob_name, dispatcher_task_id,
    String.data_append, String.data_append, htail]
  have hshape : ("task".data ++ c :: tail) ++ ".json".data =
      't' :: 'a' :: 's' :: 'k' :: c :: (tail ++ ".json".data) := by
    simp
  rw [hshape]
  have htake : List.take ("task_".data.length)
      ('t' :: 'a' :: 's' :: 'k' :: c :: (tail ++ ".json".data)) =
      ['t', 'a', 's', 'k', c] := rfl
  rw [htake]
  rw [beq_eq_false_iff_ne]
  intro h
  simp only [show "task_".data = ['t', 'a', 's', 'k', '_'] from rfl,
    List.cons.injEq, and_true, true_and] at h
  exact hcne h

/-- C10: dispatcher task ids are `task` directly followed by the
zero-padded index (no underscore), checkpoints are stored under
`<task_id>.json`, and the monitor lists only blobs whose name starts
with `task_` — which no dispatched task's record blob name ever does; a
`batch-logs` listing made up of dispatched tasks' record blobs therefore
yields an empty record set for the aggregator. -/
theorem dispatched_records_invisible (i : Nat)
    (blobs : List (String × Except String TaskRecord))
    (hnames : ∀ b ∈ blobs, ∃ j,
      b.1 = update_progress_blob_name (dispatcher_task_id j)) :
    strStartsWith (update_progress_blob_name (dispatcher_task_id i))
      "task_" = false ∧
    get_all_progress_files blobs = [] := by
  refine ⟨dispatcher_blob_not_prefixed i, ?_⟩
  rw [get_all_progress_files]
  have hfil : blobs.filter (fun b => strStartsWith b.1 "task_") = [] := by
    rw [List.filter_eq_nil_iff]
    intro b hb
    obtain ⟨j, hj⟩ := hnames b hb
    rw [hj, dispatcher_blob_not_prefixed j]
    simp
  rw [hfil]
  rfl

/-- Witness for C10: a listing holding the record blob of dispatched task
7 yields no records. -/
theorem dispatched_records_invisible_witness :
    strStartsWith (update_progress_blob_name (dispatcher_task_id 7))
      "task_" = false ∧
    get_all_progress_files
      [(update_progress_blob_name (dispatcher_task_id 7), .ok recA)] =
      [] :=
  dispatched_records_invisible 7
    [(update_progress_blob_name (dispatcher_task_id 7), .ok recA)]
    (fun b hb => ⟨7, by simp at hb; rw [hb]⟩)

end LassaSentinel
